import Mathlib

/-!
Verification development for the FMCSA SAFER scraper (TypeScript).

The definitions below are shallow embeddings of the repository's code:

* `src/orchestrator.ts` — the shared `writeBatch` array, `flushBatch`,
  `processUsdot`, `handleShutdown`, `loadTodoList` and the `stats` counters;
* `src/network.ts` — `fetchHtml`, the https-proxy-agent variant that the
  orchestrator imports via `import { fetchHtml } from './network'`;
* the SOCKS5 `fetchHtml` variant shipped in the repository alongside it
  (per-attempt identity rotation, class-dependent retry delay);
* `src/database.ts` — the `bulkInsertSnapshots` upsert loop run inside one
  transaction by `bulkInsertBatch`.

Node.js runs JavaScript on a single thread: `writeBatch.push(snapshot)` and
the synchronous prefix of `flushBatch` (the re-entrancy guard plus the
`splice` that empties the batch) execute atomically between `await` points.
The concurrent producers and the periodic writer are therefore modelled as
an arbitrary interleaving of atomic `push` and `flush` events.
-/

namespace Fmcsa

/-- A parsed carrier snapshot (`src/types/carrier.types.ts`).  The pipeline
logic only ever inspects `usdot_number` (the JS truthiness check in
`processUsdot` and the upsert key in `src/database.ts`); the remaining 30+
columns, as computed by the insert's value list, are kept as one opaque
`fields` component. -/
structure Snapshot where
  usdot_number : String
  fields : List String
deriving DecidableEq

/-- The module-level `stats` object of `src/orchestrator.ts` (lines 31–36). -/
structure Stats where
  scraped : Nat
  failed : Nat
  saved : Nat
  errors : Nat
deriving DecidableEq

/-- State of the DB-writer worker of `src/orchestrator.ts`: the shared
`writeBatch` array, the `stats` counters, the `flushing` re-entrancy flag,
the `stopped` flag of `handleShutdown`, whether the worker promise has
resolved, and a history variable `handed` recording every batch passed to
`bulkInsertBatch` (successful or not). -/
structure WriterState where
  writeBatch : List Snapshot
  stats : Stats
  flushing : Bool
  stopped : Bool
  resolved : Bool
  handed : List (List Snapshot)
deriving DecidableEq

/-- Process-start state: `writeBatch = []`, all counters zero. -/
def initWriter : WriterState :=
  { writeBatch := [], stats := ⟨0, 0, 0, 0⟩, flushing := false,
    stopped := false, resolved := false, handed := [] }

/-- Whitespace as stripped by JavaScript's `String.prototype.trim`
(restricted to the common ASCII cases). -/
def isSpaceChar (c : Char) : Bool :=
  c = ' ' || c = '\t' || c = '\n' || c = '\r'

/-- `s.trim()` of JavaScript, as an executable function on the character
list: strip leading and trailing whitespace. -/
def jsTrim (s : String) : String :=
  String.mk ((((s.data.dropWhile isSpaceChar).reverse).dropWhile isSpaceChar).reverse)

/-- The row count returned by `bulkInsertBatch`: `bulkInsertSnapshots` in
`src/database.ts` skips records whose trimmed `usdot_number` is empty and
counts the rest. -/
def batchCount (b : List Snapshot) : Nat :=
  (b.filter (fun r => jsTrim r.usdot_number != "")).length

/-- `flushBatch` from `src/orchestrator.ts` (lines 109–134).  It returns at
once when `flushing` is set or the batch is empty; otherwise it splices the
whole batch out *before* awaiting the insert ("Copy and clear immediately so
we never flush the same records twice"), hands it to `bulkInsertBatch`, and
on success adds the returned row count to `stats.saved` while on failure it
increments `stats.errors` and drops the batch ("For now we drop them to
avoid loops").  The `finally` clause resets `flushing`, so the flag is
`false` again once the call resolves; `ok` is the outcome of the awaited
`bulkInsertBatch`. -/
def flushBatch (ok : Bool) (s : WriterState) : WriterState :=
  if s.flushing || s.writeBatch.isEmpty then s
  else
    let toInsert := s.writeBatch
    if ok then
      { s with writeBatch := [], handed := s.handed ++ [toInsert],
               stats := { s.stats with saved := s.stats.saved + batchCount toInsert },
               flushing := false }
    else
      { s with writeBatch := [], handed := s.handed ++ [toInsert],
               stats := { s.stats with errors := s.stats.errors + 1 },
               flushing := false }

/-- JavaScript truthiness of `fetchHtml`'s result as used by
`if (html)` in `processUsdot`: `null` and the empty string are falsy. -/
def jsTruthy : Option String → Bool
  | none => false
  | some s => s != ""

/-- `processUsdot` from `src/orchestrator.ts` (lines 184–227), with the
external parser `parseHtmlToSnapshot` passed as the argument `parse`
(`null` return modelled as `none`) and the already-awaited `fetchHtml`
result passed as `html`.  A truthy `html` is parsed; a parsed snapshot with
truthy `usdot_number` is pushed onto `writeBatch` and counted as scraped;
every other outcome increments `stats.failed`. -/
def processUsdot (parse : String → Option Snapshot) (html : Option String)
    (s : WriterState) : WriterState :=
  if jsTruthy html then
    match parse (html.getD "") with
    | some snap =>
      if snap.usdot_number != "" then
        { s with writeBatch := s.writeBatch ++ [snap],
                 stats := { s.stats with scraped := s.stats.scraped + 1 } }
      else
        { s with stats := { s.stats with failed := s.stats.failed + 1 } }
    | none =>
      { s with stats := { s.stats with failed := s.stats.failed + 1 } }
  else
    { s with stats := { s.stats with failed := s.stats.failed + 1 } }

/-- One atomic event on the shared batch: a producer's
`writeBatch.push(snapshot)` (from `processUsdot`) or one `flushBatch`
invocation (timer tick or shutdown), whose insert resolves with `ok`. -/
inductive WriterEv
  | push (r : Snapshot)
  | flush (ok : Bool)
deriving DecidableEq

/-- Interleaving semantics of the shared batch. -/
def stepWriter (s : WriterState) : WriterEv → WriterState
  | .push r => { s with writeBatch := s.writeBatch ++ [r] }
  | .flush ok => flushBatch ok s

/-- Run a sequence of interleaved push/flush events. -/
def runWriter (s : WriterState) (evs : List WriterEv) : WriterState :=
  evs.foldl stepWriter s

/-- The records appended by a sequence of events, in order. -/
def pushed (evs : List WriterEv) : List Snapshot :=
  evs.filterMap (fun e => match e with | .push r => some r | .flush _ => none)

theorem stepWriter_conservation (s : WriterState) (e : WriterEv) :
    (stepWriter s e).handed.flatten ++ (stepWriter s e).writeBatch =
      s.handed.flatten ++ s.writeBatch ++ pushed [e] := by
  cases e with
  | push r => simp [stepWriter, pushed]
  | flush ok =>
    simp only [stepWriter, flushBatch, pushed, List.filterMap]
    split
    · simp
    · split <;> simp

theorem runWriter_conservation (evs : List WriterEv) :
    ∀ s : WriterState,
      (runWriter s evs).handed.flatten ++ (runWriter s evs).writeBatch =
        s.handed.flatten ++ s.writeBatch ++ pushed evs := by
  induction evs with
  | nil => intro s; simp [runWriter, pushed]
  | cons e rest ih =>
    intro s
    have hstep := stepWriter_conservation s e
    have hrest := ih (stepWriter s e)
    have hpush : pushed (e :: rest) = pushed [e] ++ pushed rest := by
      cases e <;> simp [pushed]
    calc (runWriter s (e :: rest)).handed.flatten ++ (runWriter s (e :: rest)).writeBatch
        = (runWriter (stepWriter s e) rest).handed.flatten ++
            (runWriter (stepWriter s e) rest).writeBatch := by rfl
      _ = (stepWriter s e).handed.flatten ++ (stepWriter s e).writeBatch ++ pushed rest := hrest
      _ = s.handed.flatten ++ s.writeBatch ++ pushed [e] ++ pushed rest := by rw [hstep]
      _ = s.handed.flatten ++ s.writeBatch ++ pushed (e :: rest) := by
          rw [hpush, List.append_assoc]

/-- C1.  For every interleaving of producer appends (`writeBatch.push` in
`processUsdot`) with writer drains (`flushBatch` splicing the batch), the
records handed to `bulkInsertBatch` across all drains, together with what is
still buffered, are exactly the appended records — first as lists (the
buffer is FIFO), hence as multisets: no appended record is lost and none is
handed to a commit twice.  Once a final drain leaves `writeBatch` empty, the
multiset union of all handed batches equals the multiset of all appends. -/
theorem append_drain_exactly_once (evs : List WriterEv) :
    (runWriter initWriter evs).handed.flatten ++ (runWriter initWriter evs).writeBatch
        = pushed evs ∧
      ((runWriter initWriter evs).handed.flatten : Multiset Snapshot) +
          ((runWriter initWriter evs).writeBatch : Multiset Snapshot) =
        (pushed evs : Multiset Snapshot) := by
  have h := runWriter_conservation evs initWriter
  have h0 : initWriter.handed.flatten ++ initWriter.writeBatch ++ pushed evs
      = pushed evs := by simp [initWriter]
  rw [h0] at h
  exact ⟨h, by rw [Multiset.coe_add, h]⟩

/-- The shutdown loop of `handleShutdown` (`src/orchestrator.ts` lines
151–158): `while (true) { if (flushing) { await sleep(50); continue; }
if (writeBatch.length === 0) break; await flushBatch('shutdown'); }`.
`outs k` is the outcome of the k-th shutdown flush's `bulkInsertBatch`.
The loop as written is unbounded; it is embedded with explicit fuel, and
the theorems show that (absent an in-flight commit) the fuel chosen in
`handleShutdown` always suffices to reach the `break`. -/
def shutdownLoop (outs : Nat → Bool) : Nat → Nat → WriterState → WriterState
  | _, 0, s => s
  | k, fuel + 1, s =>
    if s.flushing then shutdownLoop outs k fuel s
    else if s.writeBatch.isEmpty then s
    else shutdownLoop outs (k + 1) fuel (flushBatch (outs k) s)

/-- `handleShutdown` (`src/orchestrator.ts` lines 146–160): a second call
returns at once (`stopped` latch); the first call clears the flush timer,
then drives the drain loop until the batch is empty and no flush is in
flight. -/
def handleShutdown (outs : Nat → Bool) (s : WriterState) : WriterState :=
  if s.stopped then s
  else shutdownLoop outs 0 (s.writeBatch.length + 2) { s with stopped := true }

/-- `dbWriterStop` as installed in `dbWriterWorker` (lines 163–178) and
called from `main` (line 307): it awaits `handleShutdown` and only then
resolves the worker promise that `main` awaits before printing final
statistics and returning — `resolved` is set strictly after the final
drain-and-commit completed. -/
def dbWriterStop (outs : Nat → Bool) (s : WriterState) : WriterState :=
  let t := handleShutdown outs s
  { t with resolved := true }

theorem shutdownLoop_one_more (outs : Nat → Bool) (k fuel : Nat) (s : WriterState) :
    shutdownLoop outs k (fuel + 1) s =
      if s.flushing then shutdownLoop outs k fuel s
      else if s.writeBatch.isEmpty then s
      else shutdownLoop outs (k + 1) fuel (flushBatch (outs k) s) := rfl

theorem flushBatch_empties (ok : Bool) (s : WriterState) (hf : s.flushing = false) :
    (flushBatch ok s).writeBatch = [] ∧ (flushBatch ok s).flushing = false := by
  cases hb : s.writeBatch with
  | nil => cases ok <;> simp [flushBatch, hf, hb]
  | cons a l => cases ok <;> simp [flushBatch, hf, hb]

theorem shutdownLoop_fuel2_empty (outs : Nat → Bool) (k n : Nat) (s : WriterState)
    (hf : s.flushing = false) (hb : s.writeBatch.isEmpty = true) :
    shutdownLoop outs k (n + 2) s = s := by
  show shutdownLoop outs k (n + 1 + 1) s = s
  rw [shutdownLoop_one_more, if_neg (by simp [hf]), if_pos (by simp [hb])]

theorem shutdownLoop_fuel2_drain (outs : Nat → Bool) (k n : Nat) (s : WriterState)
    (hf : s.flushing = false) (hb : s.writeBatch ≠ []) :
    shutdownLoop outs k (n + 2) s = flushBatch (outs k) s := by
  show shutdownLoop outs k (n + 1 + 1) s = _
  rw [shutdownLoop_one_more, if_neg (by simp [hf]), if_neg (by simp [hb])]
  obtain ⟨h2b, h2f⟩ := flushBatch_empties (outs k) s hf
  rw [shutdownLoop_one_more, if_neg (by simp [h2f]), if_pos (by simp [h2b])]

theorem handleShutdown_eq (outs : Nat → Bool) (s : WriterState)
    (hf : s.flushing = false) (hs : s.stopped = false) :
    handleShutdown outs s =
      if s.writeBatch.isEmpty then { s with stopped := true }
      else flushBatch (outs 0) { s with stopped := true } := by
  rw [handleShutdown, if_neg (by simp [hs])]
  by_cases hb : s.writeBatch = []
  · rw [if_pos (by simp [hb])]
    exact shutdownLoop_fuel2_empty outs 0 _ _ hf (by simp [hb])
  · rw [if_neg (by simp [hb])]
    exact shutdownLoop_fuel2_drain outs 0 _ _ hf (by simpa using hb)

/-- C2.  On shutdown the drain loop runs until the write buffer is empty and
no commit is in flight, regardless of the size and time thresholds (the
shutdown flush has no threshold condition: any non-empty batch, however
small or recent, is handed to `bulkInsertBatch`); and the worker resolves —
so `main`, which awaits it, can only finish — strictly after that final
commit resolved, with its outcome recorded in `saved` (success) or `errors`
(counted failure).  Hypotheses: the writer has not already been stopped and
no commit is in flight when the loop tests the buffer (the source loop
sleeps until `flushing` is clear, and each awaited `flushBatch` resets it in
its `finally`). -/
theorem shutdown_drains_then_stops (outs : Nat → Bool) (s : WriterState)
    (hf : s.flushing = false) (hs : s.stopped = false) :
    (dbWriterStop outs s).resolved = true ∧
      (dbWriterStop outs s).stopped = true ∧
      (dbWriterStop outs s).writeBatch = [] ∧
      (dbWriterStop outs s).flushing = false ∧
      (dbWriterStop outs s).handed =
        s.handed ++ (if s.writeBatch.isEmpty then [] else [s.writeBatch]) ∧
      (s.writeBatch ≠ [] → outs 0 = true →
        (dbWriterStop outs s).stats.saved = s.stats.saved + batchCount s.writeBatch ∧
          (dbWriterStop outs s).stats.errors = s.stats.errors) ∧
      (s.writeBatch ≠ [] → outs 0 = false →
        (dbWriterStop outs s).stats.errors = s.stats.errors + 1 ∧
          (dbWriterStop outs s).stats.saved = s.stats.saved) := by
  have heq := handleShutdown_eq outs s hf hs
  cases hwb : s.writeBatch with
  | nil =>
    rw [hwb] at heq
    simp only [List.isEmpty_nil, if_true] at heq
    refine ⟨rfl, ?_, ?_, ?_, ?_, ?_, ?_⟩ <;>
      simp [dbWriterStop, heq, hwb, hf]
  | cons a l =>
    rw [hwb] at heq
    simp only [List.isEmpty_cons, if_false] at heq
    cases hok : outs 0 with
    | true =>
      rw [hok] at heq
      refine ⟨rfl, ?_, ?_, ?_, ?_, ?_, ?_⟩ <;>
        simp [dbWriterStop, heq, flushBatch, hwb, hf, hok]
    | false =>
      rw [hok] at heq
      refine ⟨rfl, ?_, ?_, ?_, ?_, ?_, ?_⟩ <;>
        simp [dbWriterStop, heq, flushBatch, hwb, hf, hok]

/-- Witness for C2, the spec's shutdown scenario: the buffer holds 3 unsaved
records (below the default 1000 size threshold) when shutdown begins; after
`dbWriterStop` the buffer is empty, the worker has resolved, and `saved`
grew by 3 — only then can `main` return. -/
theorem shutdown_drains_then_stops_witness :
    (dbWriterStop (fun _ => true)
        { initWriter with writeBatch := [⟨"1", []⟩, ⟨"2", []⟩, ⟨"3", []⟩] }).resolved
        = true ∧
      (dbWriterStop (fun _ => true)
        { initWriter with writeBatch := [⟨"1", []⟩, ⟨"2", []⟩, ⟨"3", []⟩] }).writeBatch
        = [] ∧
      (dbWriterStop (fun _ => true)
        { initWriter with writeBatch := [⟨"1", []⟩, ⟨"2", []⟩, ⟨"3", []⟩] }).stats.saved
        = 3 := by
  have h := shutdown_drains_then_stops (fun _ => true)
    { initWriter with writeBatch := [⟨"1", []⟩, ⟨"2", []⟩, ⟨"3", []⟩] }
    rfl rfl
  refine ⟨h.1, h.2.2.1, ?_⟩
  have hsaved := (h.2.2.2.2.2.1 (by simp) rfl).1
  rw [hsaved]
  decide

theorem runWriter_pushes (rs : List Snapshot) :
    ∀ s : WriterState, runWriter s (rs.map WriterEv.push)
      = { s with writeBatch := s.writeBatch ++ rs } := by
  induction rs with
  | nil => intro s; simp [runWriter]
  | cons a l ih =>
    intro s
    have hstep : runWriter s ((a :: l).map WriterEv.push)
        = runWriter { s with writeBatch := s.writeBatch ++ [a] } (l.map WriterEv.push) := rfl
    rw [hstep, ih]
    simp

/-- C3.  A failed batch commit drops the whole batch: the spliced records
are never re-queued (`writeBatch` stays empty, the batch appears in the
handed history exactly once), `stats.errors` is incremented, no other
counter moves, and the `finally` clause leaves `flushing` clear — so any
later flush over subsequently pushed records `rs` commits exactly `rs`,
just as if the failed batch had never existed. -/
theorem flush_failure_isolated (s : WriterState)
    (hf : s.flushing = false) (hb : s.writeBatch ≠ []) :
    (flushBatch false s).writeBatch = [] ∧
      (flushBatch false s).stats.errors = s.stats.errors + 1 ∧
      (flushBatch false s).stats.saved = s.stats.saved ∧
      (flushBatch false s).stats.scraped = s.stats.scraped ∧
      (flushBatch false s).stats.failed = s.stats.failed ∧
      (flushBatch false s).flushing = false ∧
      (flushBatch false s).handed = s.handed ++ [s.writeBatch] ∧
      ∀ rs : List Snapshot, rs ≠ [] →
        (flushBatch true (runWriter (flushBatch false s) (rs.map WriterEv.push))).handed
            = s.handed ++ [s.writeBatch] ++ [rs] ∧
          (flushBatch true (runWriter (flushBatch false s) (rs.map WriterEv.push))).stats.saved
            = s.stats.saved + batchCount rs ∧
          (flushBatch true (runWriter (flushBatch false s) (rs.map WriterEv.push))).stats.errors
            = s.stats.errors + 1 ∧
          (flushBatch true (runWriter (flushBatch false s) (rs.map WriterEv.push))).writeBatch
            = [] := by
  obtain ⟨a, l, hwb⟩ : ∃ a l, s.writeBatch = a :: l := by
    cases h : s.writeBatch with
    | nil => exact absurd h hb
    | cons a l => exact ⟨a, l, rfl⟩
  have hfail : flushBatch false s =
      { s with writeBatch := [], handed := s.handed ++ [s.writeBatch],
               stats := { s.stats with errors := s.stats.errors + 1 },
               flushing := false } := by
    simp [flushBatch, hf, hwb]
  refine ⟨by rw [hfail], by rw [hfail], by rw [hfail], by rw [hfail], by rw [hfail],
    by rw [hfail], by rw [hfail], ?_⟩
  intro rs hrs
  obtain ⟨b, m, hrsc⟩ : ∃ b m, rs = b :: m := by
    cases h : rs with
    | nil => exact absurd h hrs
    | cons b m => exact ⟨b, m, rfl⟩
  rw [runWriter_pushes, hfail]
  refine ⟨?_, ?_, ?_, ?_⟩ <;> simp [flushBatch, hrsc]

/-- Witness for C3: a failed commit of one record, followed by a push of a
fresh record and a successful flush that commits exactly the new record. -/
theorem flush_failure_isolated_witness :
    (flushBatch false { initWriter with writeBatch := [⟨"7", []⟩] }).stats.errors = 1 ∧
      (flushBatch false { initWriter with writeBatch := [⟨"7", []⟩] }).writeBatch = [] ∧
      (flushBatch true
          (runWriter (flushBatch false { initWriter with writeBatch := [⟨"7", []⟩] })
            ([(⟨"8", []⟩ : Snapshot)].map WriterEv.push))).handed
        = [[⟨"7", []⟩], [⟨"8", []⟩]] := by
  have h := flush_failure_isolated { initWriter with writeBatch := [⟨"7", []⟩] }
    rfl (by simp)
  refine ⟨h.2.1, h.1, ?_⟩
  have hh := (h.2.2.2.2.2.2.2 [⟨"8", []⟩] (by simp)).1
  rw [hh]
  rfl

/-! ## Network layer

Two fetch implementations exist in the repository.  `src/network.ts`
(imported by the orchestrator) rotates the proxy identity *per call*:
`getProxyAgent()` — which draws one random session id — runs once at line
67, before the retry loop, and the resulting agent is used by every
attempt.  The unnamed SOCKS5 variant builds a fresh agent *inside* the
loop, drawing a new `sessId` from `randomBytes` for every attempt, and
picks the retry delay from the failure message (200 ms for
`RESET`/`EPROTO`/`closed`, 2000 ms otherwise), while `src/network.ts`
sleeps a flat `retryDelay = 1000` on every retryable failure.

Randomness is modelled by passing the drawn session token(s) as
parameters: `tok` is the single draw of the per-call variant, `gen i` the
draw made by attempt `i` of the per-attempt variant.  `outs i` is the
outcome of attempt `i` (an HTTP response with status `< 500` is delivered
by axios thanks to `validateStatus`, everything else surfaces as an
error). -/

/-- Observable trace of one `fetchHtml` call: the returned value (`none`
models `null`), how many attempts ran, the sleeps taken before retries (in
order), and the proxy session token presented by each attempt (in order). -/
structure FetchTrace where
  result : Option String
  attemptsUsed : Nat
  delays : List Nat
  tokens : List String
deriving DecidableEq

/-- Prepend one more (earlier) attempt with token `tok` and sleep `d` to the
trace of the remaining attempts. -/
def retryStep (tok : String) (d : Nat) (t : FetchTrace) : FetchTrace :=
  { result := t.result, attemptsUsed := t.attemptsUsed + 1,
    delays := d :: t.delays, tokens := tok :: t.tokens }

/-- JavaScript `String.prototype.includes`, executable on character lists. -/
def hasInfixChars (pat : List Char) : List Char → Bool
  | [] => pat.isEmpty
  | c :: rest => pat.isPrefixOf (c :: rest) || hasInfixChars pat rest

/-- `s.includes(pat)` of JavaScript. -/
def jsIncludes (s pat : String) : Bool := hasInfixChars pat.data s.data

/-- Outcome of one attempt of `src/network.ts`'s `fetchHtml`: a delivered
response, or an axios error carrying `error.code` and `error.message`. -/
inductive HttpAttempt
  | status (code : Nat) (body : String)
  | netError (ecode emsg : String)
deriving DecidableEq

/-- The delay slept before a retry in the catch block of `src/network.ts`
(lines 134–216).  The branches — timeout (`ECONNABORTED`/message contains
"timeout"), connection errors (`ECONNREFUSED`/`ENOTFOUND`/`ETIMEDOUT`),
other axios errors, unexpected errors — differ only in logging: each sets
`retryDelay = 1000`. -/
def netErrorRetryDelay (ecode emsg : String) : Nat :=
  if ecode = "ECONNABORTED" || jsIncludes emsg "timeout" then 1000
  else if ecode = "ECONNREFUSED" || ecode = "ENOTFOUND" || ecode = "ETIMEDOUT" then 1000
  else 1000

/-- The retry loop of `fetchHtml` in `src/network.ts` (lines 74–217) over
the outcomes of the remaining attempts: HTTP 200 returns the body, 404
returns `null` at once, 403/429 and ≥ 500 sleep 1000 ms and retry while
attempts remain, any other status is terminal, and every caught network
error sleeps `netErrorRetryDelay` and retries while attempts remain.  The
session token `tok` — drawn once by `getProxyAgent()` before the loop — is
presented by every attempt. -/
def fetchAttempts (tok : String) : List HttpAttempt → FetchTrace
  | [] => ⟨none, 0, [], []⟩
  | o :: rest =>
    match o with
    | .status code body =>
      if code = 200 then ⟨some body, 1, [], [tok]⟩
      else if code = 404 then ⟨none, 1, [], [tok]⟩
      else if code = 403 ∨ code = 429 then
        match rest with
        | [] => ⟨none, 1, [], [tok]⟩
        | r :: rs => retryStep tok 1000 (fetchAttempts tok (r :: rs))
      else if 500 ≤ code then
        match rest with
        | [] => ⟨none, 1, [], [tok]⟩
        | r :: rs => retryStep tok 1000 (fetchAttempts tok (r :: rs))
      else ⟨none, 1, [], [tok]⟩
    | .netError ecode emsg =>
      match rest with
      | [] => ⟨none, 1, [], [tok]⟩
      | r :: rs => retryStep tok (netErrorRetryDelay ecode emsg) (fetchAttempts tok (r :: rs))

/-- `fetchHtml(usdot)` of `src/network.ts`, run for `maxRetries` attempts
whose outcomes are `outs 0, outs 1, …`; `tok` is the session id drawn by
the single `getProxyAgent()` call at line 67. -/
def fetchHtml (maxRetries : Nat) (tok : String) (outs : Nat → HttpAttempt) : FetchTrace :=
  fetchAttempts tok ((List.range maxRetries).map outs)

/-- Outcome of one attempt of the SOCKS5 `fetchHtml` variant: a delivered
response (axios `validateStatus: s < 500`), or a caught error whose
`err.code || err.message` is `msg`. -/
inductive SocksAttempt
  | status (code : Nat) (body : String)
  | netErr (msg : String)
deriving DecidableEq

/-- The SOCKS5 variant's retry delay (its lines 95–101): 200 ms when the
failure message contains `RESET`, `EPROTO` or ` closed` (ephemeral
proxy/session faults), 2000 ms otherwise. -/
def socksRetryDelay (msg : String) : Nat :=
  if jsIncludes msg "RESET" || jsIncludes msg "EPROTO" || jsIncludes msg " closed" then 200
  else 2000

/-- The retry loop of the SOCKS5 `fetchHtml` variant: attempt `i` builds a
fresh agent from `getSocksProxyUrl()`, whose session id is the fresh draw
`gen i`; HTTP 200 returns the body, 404 returns `null`, any other delivered
status is thrown as `HTTP <code>` and caught; a caught failure sleeps
`socksRetryDelay` of its message and retries while attempts remain. -/
def socksAttempts (gen : Nat → String) : Nat → List SocksAttempt → FetchTrace
  | _, [] => ⟨none, 0, [], []⟩
  | i, o :: rest =>
    match o with
    | .status code body =>
      if code = 200 then ⟨some body, 1, [], [gen i]⟩
      else if code = 404 then ⟨none, 1, [], [gen i]⟩
      else
        match rest with
        | [] => ⟨none, 1, [], [gen i]⟩
        | r :: rs =>
          retryStep (gen i) (socksRetryDelay ("HTTP " ++ toString code))
            (socksAttempts gen (i + 1) (r :: rs))
    | .netErr msg =>
      match rest with
      | [] => ⟨none, 1, [], [gen i]⟩
      | r :: rs =>
        retryStep (gen i) (socksRetryDelay msg) (socksAttempts gen (i + 1) (r :: rs))

/-- The SOCKS5 `fetchHtml` variant run for `maxRetries` attempts; attempt
`i` draws the fresh session id `gen i`. -/
def fetchHtmlSocks (maxRetries : Nat) (gen : Nat → String) (outs : Nat → SocksAttempt) :
    FetchTrace :=
  socksAttempts gen 0 ((List.range maxRetries).map outs)

theorem range_succ_map_head {α : Type} (f : Nat → α) (n : Nat) :
    (List.range (n + 1)).map f = f 0 :: (List.range n).map (fun k => f (k + 1)) := by
  rw [List.range_succ_eq_map]
  simp [List.map_map, Function.comp]

theorem fetchAttempts_status_nil (tok : String) (code : Nat) (body : String) :
    fetchAttempts tok [HttpAttempt.status code body] =
      if code = 200 then ⟨some body, 1, [], [tok]⟩
      else if code = 404 then ⟨none, 1, [], [tok]⟩
      else if code = 403 ∨ code = 429 then ⟨none, 1, [], [tok]⟩
      else if 500 ≤ code then ⟨none, 1, [], [tok]⟩
      else ⟨none, 1, [], [tok]⟩ := rfl

theorem fetchAttempts_status_cons (tok : String) (code : Nat) (body : String)
    (r : HttpAttempt) (rs : List HttpAttempt) :
    fetchAttempts tok (HttpAttempt.status code body :: r :: rs) =
      if code = 200 then ⟨some body, 1, [], [tok]⟩
      else if code = 404 then ⟨none, 1, [], [tok]⟩
      else if code = 403 ∨ code = 429 then retryStep tok 1000 (fetchAttempts tok (r :: rs))
      else if 500 ≤ code then retryStep tok 1000 (fetchAttempts tok (r :: rs))
      else ⟨none, 1, [], [tok]⟩ := rfl

theorem fetchAttempts_netError_nil (tok ecode emsg : String) :
    fetchAttempts tok [HttpAttempt.netError ecode emsg] = ⟨none, 1, [], [tok]⟩ := rfl

theorem fetchAttempts_netError_cons (tok ecode emsg : String)
    (r : HttpAttempt) (rs : List HttpAttempt) :
    fetchAttempts tok (HttpAttempt.netError ecode emsg :: r :: rs) =
      retryStep tok (netErrorRetryDelay ecode emsg) (fetchAttempts tok (r :: rs)) := rfl

theorem socksAttempts_status_nil (gen : Nat → String) (i code : Nat) (body : String) :
    socksAttempts gen i [SocksAttempt.status code body] =
      if code = 200 then ⟨some body, 1, [], [gen i]⟩
      else if code = 404 then ⟨none, 1, [], [gen i]⟩
      else ⟨none, 1, [], [gen i]⟩ := rfl

theorem socksAttempts_status_cons (gen : Nat → String) (i code : Nat) (body : String)
    (r : SocksAttempt) (rs : List SocksAttempt) :
    socksAttempts gen i (SocksAttempt.status code body :: r :: rs) =
      if code = 200 then ⟨some body, 1, [], [gen i]⟩
      else if code = 404 then ⟨none, 1, [], [gen i]⟩
      else retryStep (gen i) (socksRetryDelay ("HTTP " ++ toString code))
        (socksAttempts gen (i + 1) (r :: rs)) := rfl

theorem socksAttempts_netErr_nil (gen : Nat → String) (i : Nat) (msg : String) :
    socksAttempts gen i [SocksAttempt.netErr msg] = ⟨none, 1, [], [gen i]⟩ := rfl

theorem socksAttempts_netErr_cons (gen : Nat → String) (i : Nat) (msg : String)
    (r : SocksAttempt) (rs : List SocksAttempt) :
    socksAttempts gen i (SocksAttempt.netErr msg :: r :: rs) =
      retryStep (gen i) (socksRetryDelay msg) (socksAttempts gen (i + 1) (r :: rs)) := rfl

theorem fetchAttempts_tokens_replicate (tok : String) (l : List HttpAttempt) :
    (fetchAttempts tok l).tokens
      = List.replicate (fetchAttempts tok l).attemptsUsed tok := by
  induction l with
  | nil => rfl
  | cons o rest ih =>
    have hre : ∀ t : FetchTrace,
        t.tokens = List.replicate t.attemptsUsed tok →
        ∀ d : Nat, (retryStep tok d t).tokens
          = List.replicate (retryStep tok d t).attemptsUsed tok := by
      intro t ht d
      simp [retryStep, List.replicate_succ, ht]
    cases o with
    | status code body =>
      cases rest with
      | nil =>
        rw [fetchAttempts_status_nil]
        split
        · rfl
        · split
          · rfl
          · split
            · rfl
            · split <;> rfl
      | cons r rs =>
        rw [fetchAttempts_status_cons]
        split
        · rfl
        · split
          · rfl
          · split
            · exact hre _ ih 1000
            · split
              · exact hre _ ih 1000
              · rfl
    | netError ecode emsg =>
      cases rest with
      | nil => rw [fetchAttempts_netError_nil]; rfl
      | cons r rs =>
        rw [fetchAttempts_netError_cons]
        exact hre _ ih _

theorem socksAttempts_tokens (gen : Nat → String) (l : List SocksAttempt) :
    ∀ i : Nat, (socksAttempts gen i l).tokens
      = (List.range (socksAttempts gen i l).attemptsUsed).map (fun k => gen (i + k)) := by
  induction l with
  | nil => intro i; rfl
  | cons o rest ih =>
    intro i
    have hone : ([gen i] : List String)
        = (List.range 1).map (fun k => gen (i + k)) := rfl
    have hstep : ∀ t : FetchTrace, t.tokens
          = (List.range t.attemptsUsed).map (fun k => gen (i + 1 + k)) →
        ∀ d : Nat, (retryStep (gen i) d t).tokens
          = (List.range (retryStep (gen i) d t).attemptsUsed).map (fun k => gen (i + k)) := by
      intro t ht d
      show gen i :: t.tokens
        = (List.range (t.attemptsUsed + 1)).map (fun k => gen (i + k))
      rw [range_succ_map_head, Nat.add_zero, ht]
      refine congrArg _ (List.map_congr_left ?_)
      intro k _
      exact congrArg gen (by omega)
    cases o with
    | status code body =>
      cases rest with
      | nil =>
        rw [socksAttempts_status_nil]
        split
        · exact hone
        · split <;> exact hone
      | cons r rs =>
        rw [socksAttempts_status_cons]
        split
        · exact hone
        · split
          · exact hone
          · exact hstep _ (ih (i + 1)) _
    | netErr msg =>
      cases rest with
      | nil => rw [socksAttempts_netErr_nil]; exact hone
      | cons r rs =>
        rw [socksAttempts_netErr_cons]
        exact hstep _ (ih (i + 1)) _

/-- Counterexample to C4 on the `fetchHtml` that the orchestrator imports
(`src/network.ts`): `getProxyAgent()` — the only draw of a session id — runs
once, at line 67, *before* the retry loop, so a call whose three attempts
all receive HTTP 403 presents the same session token (here the call's
single draw `"s0"`) on every attempt: the presented tokens are not
pairwise distinct. -/
theorem fetch_identity_not_fresh_per_attempt_cex :
    (fetchHtml 3 "s0" (fun _ => HttpAttempt.status 403 "denied")).attemptsUsed = 3 ∧
      (fetchHtml 3 "s0" (fun _ => HttpAttempt.status 403 "denied")).tokens
        = ["s0", "s0", "s0"] ∧
      ¬ ((fetchHtml 3 "s0" (fun _ => HttpAttempt.status 403 "denied")).tokens).Nodup := by
  decide

/-- C4 as amended.  In `src/network.ts` the identity is obtained once per
`fetchHtml` call and shared by all its retry attempts (every presented
token equals the call's single draw); only the repository's SOCKS5 variant
obtains a fresh identity per attempt — attempt `i` presents the fresh draw
`gen i`, so when the draws are pairwise distinct no two attempts of the
same fetch present the same session token. -/
theorem fetch_identity_per_call_vs_per_attempt :
    (∀ (maxRetries : Nat) (tok : String) (outs : Nat → HttpAttempt),
        ∀ t ∈ (fetchHtml maxRetries tok outs).tokens, t = tok) ∧
      (∀ (maxRetries : Nat) (gen : Nat → String) (outs : Nat → SocksAttempt),
          (fetchHtmlSocks maxRetries gen outs).tokens
            = (List.range (fetchHtmlSocks maxRetries gen outs).attemptsUsed).map gen) ∧
      (∀ (maxRetries : Nat) (gen : Nat → String) (outs : Nat → SocksAttempt),
          Function.Injective gen →
            ((fetchHtmlSocks maxRetries gen outs).tokens).Nodup) := by
  have hsocks : ∀ (maxRetries : Nat) (gen : Nat → String) (outs : Nat → SocksAttempt),
      (fetchHtmlSocks maxRetries gen outs).tokens
        = (List.range (fetchHtmlSocks maxRetries gen outs).attemptsUsed).map gen := by
    intro maxRetries gen outs
    rw [fetchHtmlSocks, socksAttempts_tokens gen _ 0]
    exact List.map_congr_left (fun k _ => congrArg gen (Nat.zero_add k))
  refine ⟨?_, hsocks, ?_⟩
  · intro maxRetries tok outs t ht
    rw [fetchHtml, fetchAttempts_tokens_replicate] at ht
    exact List.eq_of_mem_replicate ht
  · intro maxRetries gen outs hinj
    rw [hsocks]
    exact (List.nodup_range _).map hinj

/-- Witness for C4 (amended): a 403-retried call of the wired `fetchHtml`
presents only its call-level token, and a three-attempt SOCKS5 call with
pairwise-distinct draws presents pairwise-distinct tokens. -/
theorem fetch_identity_per_call_vs_per_attempt_witness :
    ("s0" : String) = "s0" ∧
      ((fetchHtmlSocks 3 (fun n => String.mk (List.replicate n 'x'))
          (fun _ => SocksAttempt.netErr "ECONNRESET")).tokens).Nodup := by
  constructor
  · exact fetch_identity_per_call_vs_per_attempt.1 3 "s0"
      (fun _ => HttpAttempt.status 403 "denied") "s0" (by decide)
  · refine fetch_identity_per_call_vs_per_attempt.2.2 3 _ _ ?_
    intro a b h
    have h2 := congrArg (fun s : String => s.data.length) h
    simpa using h2

theorem netErrorRetryDelay_eq (ecode emsg : String) :
    netErrorRetryDelay ecode emsg = 1000 := by
  unfold netErrorRetryDelay
  split
  · rfl
  · split <;> rfl

theorem fetchAttempts_delays_all (tok : String) (l : List HttpAttempt) :
    ((fetchAttempts tok l).delays).all (fun d => d == 1000) = true := by
  induction l with
  | nil => rfl
  | cons o rest ih =>
    have hre : ∀ (t : FetchTrace) (d : Nat), d = 1000 →
        (t.delays).all (fun x => x == 1000) = true →
        ((retryStep tok d t).delays).all (fun x => x == 1000) = true := by
      intro t d hd ht
      simp [retryStep, hd, ht]
    cases o with
    | status code body =>
      cases rest with
      | nil =>
        rw [fetchAttempts_status_nil]
        split
        · rfl
        · split
          · rfl
          · split
            · rfl
            · split <;> rfl
      | cons r rs =>
        rw [fetchAttempts_status_cons]
        split
        · rfl
        · split
          · rfl
          · split
            · exact hre _ 1000 rfl ih
            · split
              · exact hre _ 1000 rfl ih
              · rfl
    | netError ecode emsg =>
      cases rest with
      | nil => rw [fetchAttempts_netError_nil]; rfl
      | cons r rs =>
        rw [fetchAttempts_netError_cons]
        exact hre _ _ (netErrorRetryDelay_eq ecode emsg) ih

theorem socksRetryDelay_cases (msg : String) :
    socksRetryDelay msg = 200 ∨ socksRetryDelay msg = 2000 := by
  unfold socksRetryDelay
  split
  · exact Or.inl rfl
  · exact Or.inr rfl

theorem socksAttempts_delays_all (gen : Nat → String) (l : List SocksAttempt) :
    ∀ i : Nat, ((socksAttempts gen i l).delays).all
      (fun d => d == 200 || d == 2000) = true := by
  induction l with
  | nil => intro i; rfl
  | cons o rest ih =>
    intro i
    have hre : ∀ (t : FetchTrace) (d : Nat), (d = 200 ∨ d = 2000) →
        (t.delays).all (fun x => x == 200 || x == 2000) = true →
        ((retryStep (gen i) d t).delays).all (fun x => x == 200 || x == 2000) = true := by
      intro t d hd ht
      cases hd with
      | inl h => simp [retryStep, h, ht]
      | inr h => simp [retryStep, h, ht]
    cases o with
    | status code body =>
      cases rest with
      | nil =>
        rw [socksAttempts_status_nil]
        split
        · rfl
        · split <;> rfl
      | cons r rs =>
        rw [socksAttempts_status_cons]
        split
        · rfl
        · split
          · rfl
          · exact hre _ _ (socksRetryDelay_cases _) (ih (i + 1))
    | netErr msg =>
      cases rest with
      | nil => rw [socksAttempts_netErr_nil]; rfl
      | cons r rs =>
        rw [socksAttempts_netErr_cons]
        exact hre _ _ (socksRetryDelay_cases msg) (ih (i + 1))

/-- Counterexample to C5 on the `fetchHtml` that the orchestrator imports
(`src/network.ts`): a connection-reset failure is retried after 1000 ms,
exactly the same sleep as a timeout — the delay there does not depend on
the failure class and is not on the order of 200 ms.  (The 200 ms/2000 ms
classification lives only in the SOCKS5 variant.) -/
theorem retry_delay_flat_cex :
    (fetchHtml 2 "s0"
        (fun _ => HttpAttempt.netError "ECONNRESET" "read ECONNRESET")).delays
      = [1000] ∧
      (fetchHtml 2 "s0"
          (fun _ => HttpAttempt.netError "ECONNABORTED" "timeout of 15000ms exceeded")).delays
        = [1000] ∧
      (1000 : Nat) ≠ 200 := by
  decide

/-- C5 as amended.  The class-dependent retry delay — about 200 ms for
failures whose message signals a reset, a protocol error or a connection
closed mid-request, 2000 ms for the other network failures (timeout, DNS,
refused) — is implemented by the repository's SOCKS5 `fetchHtml` variant;
the `fetchHtml` of `src/network.ts` that the orchestrator imports sleeps a
flat 1000 ms before every retry regardless of the failure class. -/
theorem retry_delay_policy :
    (∀ (maxRetries : Nat) (tok : String) (outs : Nat → HttpAttempt),
        ((fetchHtml maxRetries tok outs).delays).all (fun d => d == 1000) = true) ∧
      socksRetryDelay "ECONNRESET" = 200 ∧
      socksRetryDelay "EPROTO" = 200 ∧
      socksRetryDelay "Socket closed" = 200 ∧
      socksRetryDelay "ECONNABORTED" = 2000 ∧
      socksRetryDelay "ENOTFOUND" = 2000 ∧
      socksRetryDelay "ECONNREFUSED" = 2000 ∧
      socksRetryDelay "ETIMEDOUT" = 2000 ∧
      (∀ (maxRetries : Nat) (gen : Nat → String) (outs : Nat → SocksAttempt),
          ((fetchHtmlSocks maxRetries gen outs).delays).all
            (fun d => d == 200 || d == 2000) = true) ∧
      (fetchHtmlSocks 2 (fun _ => "g") (fun _ => SocksAttempt.netErr "ECONNRESET")).delays
        = [200] ∧
      (fetchHtmlSocks 2 (fun _ => "g") (fun _ => SocksAttempt.netErr "ECONNABORTED")).delays
        = [2000] := by
  refine ⟨?_, by decide, by decide, by decide, by decide, by decide, by decide, by decide,
    ?_, by decide, by decide⟩
  · intro maxRetries tok outs
    exact fetchAttempts_delays_all tok _
  · intro maxRetries gen outs
    exact socksAttempts_delays_all gen _ 0

theorem fetchHtml_first_404 (maxRetries : Nat) (tok body : String)
    (outs : Nat → HttpAttempt) (h1 : 1 ≤ maxRetries)
    (h404 : outs 0 = HttpAttempt.status 404 body) :
    fetchHtml maxRetries tok outs = ⟨none, 1, [], [tok]⟩ := by
  obtain ⟨n, rfl⟩ : ∃ n, maxRetries = n + 1 := ⟨maxRetries - 1, by omega⟩
  rw [fetchHtml, range_succ_map_head, h404]
  cases (List.range n).map (fun k => outs (k + 1)) with
  | nil => rw [fetchAttempts_status_nil, if_neg (by decide), if_pos rfl]
  | cons r rs => rw [fetchAttempts_status_cons, if_neg (by decide), if_pos rfl]

theorem fetchHtml_first_200 (maxRetries : Nat) (tok body : String)
    (outs : Nat → HttpAttempt) (h1 : 1 ≤ maxRetries)
    (h200 : outs 0 = HttpAttempt.status 200 body) :
    fetchHtml maxRetries tok outs = ⟨some body, 1, [], [tok]⟩ := by
  obtain ⟨n, rfl⟩ : ∃ n, maxRetries = n + 1 := ⟨maxRetries - 1, by omega⟩
  rw [fetchHtml, range_succ_map_head, h200]
  cases (List.range n).map (fun k => outs (k + 1)) with
  | nil => rw [fetchAttempts_status_nil, if_pos rfl]
  | cons r rs => rw [fetchAttempts_status_cons, if_pos rfl]

theorem fetchAttempts_all_403 (tok : String) (l : List HttpAttempt) :
    l ≠ [] → (∀ o ∈ l, ∃ b, o = HttpAttempt.status 403 b) →
      (fetchAttempts tok l).attemptsUsed = l.length ∧
        (fetchAttempts tok l).result = none := by
  induction l with
  | nil => intro h; exact absurd rfl h
  | cons o rest ih =>
    intro _ hall
    obtain ⟨b, rfl⟩ := hall o (by simp)
    cases rest with
    | nil =>
      rw [fetchAttempts_status_nil, if_neg (by decide), if_neg (by decide),
        if_pos (Or.inl rfl)]
      exact ⟨rfl, rfl⟩
    | cons r rs =>
      rw [fetchAttempts_status_cons, if_neg (by decide), if_neg (by decide),
        if_pos (Or.inl rfl)]
      have h := ih (by simp) (fun o ho => hall o (List.mem_cons_of_mem _ ho))
      refine ⟨?_, ?_⟩
      · show (fetchAttempts tok (r :: rs)).attemptsUsed + 1 = (r :: rs).length + 1
        rw [h.1]
      · show (fetchAttempts tok (r :: rs)).result = none
        exact h.2

/-- C7.  On `fetchHtml` of `src/network.ts`: a fetch whose first attempt
returns HTTP 404 performs exactly one attempt, no retry and no sleep; a
fetch that receives HTTP 403 on every attempt performs exactly
`MAX_RETRIES` attempts and then returns the terminal failure `null`. -/
theorem fetch_retry_classification :
    (∀ (maxRetries : Nat) (tok body : String) (outs : Nat → HttpAttempt),
        1 ≤ maxRetries → outs 0 = HttpAttempt.status 404 body →
          (fetchHtml maxRetries tok outs).attemptsUsed = 1 ∧
            (fetchHtml maxRetries tok outs).result = none ∧
            (fetchHtml maxRetries tok outs).delays = []) ∧
      (∀ (maxRetries : Nat) (tok : String) (bodies : Nat → String),
          1 ≤ maxRetries →
            (fetchHtml maxRetries tok
                (fun i => HttpAttempt.status 403 (bodies i))).attemptsUsed = maxRetries ∧
              (fetchHtml maxRetries tok
                (fun i => HttpAttempt.status 403 (bodies i))).result = none) := by
  constructor
  · intro maxRetries tok body outs h1 h404
    rw [fetchHtml_first_404 maxRetries tok body outs h1 h404]
    exact ⟨rfl, rfl, rfl⟩
  · intro maxRetries tok bodies h1
    have hne : (List.range maxRetries).map
        (fun i => HttpAttempt.status 403 (bodies i)) ≠ [] := by
      intro hc
      rw [List.map_eq_nil_iff, List.range_eq_nil] at hc
      omega
    have hall : ∀ o ∈ (List.range maxRetries).map
        (fun i => HttpAttempt.status 403 (bodies i)), ∃ b, o = HttpAttempt.status 403 b := by
      intro o ho
      obtain ⟨i, _, rfl⟩ := List.mem_map.mp ho
      exact ⟨bodies i, rfl⟩
    have h := fetchAttempts_all_403 tok _ hne hall
    rw [fetchHtml]
    refine ⟨?_, h.2⟩
    rw [h.1, List.length_map, List.length_range]

/-- Witness for C7: with `MAX_RETRIES = 3`, a first-attempt 404 uses one
attempt; three 403s in a row use exactly three. -/
theorem fetch_retry_classification_witness :
    (fetchHtml 3 "s0" (fun _ => HttpAttempt.status 404 "nf")).attemptsUsed = 1 ∧
      (fetchHtml 3 "s0" (fun _ => HttpAttempt.status 403 "denied")).attemptsUsed = 3 := by
  constructor
  · exact (fetch_retry_classification.1 3 "s0" "nf"
      (fun _ => HttpAttempt.status 404 "nf") (by omega) rfl).1
  · exact (fetch_retry_classification.2 3 "s0" (fun _ => "denied") (by omega)).1

theorem processUsdot_falsy (parse : String → Option Snapshot) (html : Option String)
    (s : WriterState) (h : jsTruthy html = false) :
    processUsdot parse html s
      = { s with stats := { s.stats with failed := s.stats.failed + 1 } } := by
  rw [processUsdot, h]
  simp

/-- Counterexample to C6 on `processUsdot` (`src/orchestrator.ts`): a fetch
whose first attempt returns HTTP 404 makes `fetchHtml` return `null`, and
`processUsdot`'s `else` branch then increments `stats.failed` — the 404
item *is* counted under the failed counter. -/
theorem http404_counted_as_failed_cex :
    (fetchHtml 3 "s0" (fun _ => HttpAttempt.status 404 "")).result = none ∧
      (processUsdot (fun _ => none)
          (fetchHtml 3 "s0" (fun _ => HttpAttempt.status 404 "")).result
          initWriter).stats.failed = 1 ∧
      initWriter.stats.failed = 0 := by
  decide

/-- C6 as amended.  HTTP 404 is terminal at the network layer — exactly one
attempt, no retry, no sleep, `null` returned — and the item completes with
no record ever appended to the write buffer; but because `fetchHtml`
returns `null`, indistinguishable from a failed fetch, the pipeline counts
the item under `stats.failed` (it is not a separate "completed, no record"
outcome). -/
theorem http404_terminal_but_counted_failed (maxRetries : Nat) (tok body : String)
    (outs : Nat → HttpAttempt) (parse : String → Option Snapshot) (s : WriterState)
    (h1 : 1 ≤ maxRetries) (h404 : outs 0 = HttpAttempt.status 404 body) :
    (fetchHtml maxRetries tok outs).result = none ∧
      (fetchHtml maxRetries tok outs).attemptsUsed = 1 ∧
      (fetchHtml maxRetries tok outs).delays = [] ∧
      (processUsdot parse (fetchHtml maxRetries tok outs).result s).writeBatch
          = s.writeBatch ∧
      (processUsdot parse (fetchHtml maxRetries tok outs).result s).stats.scraped
          = s.stats.scraped ∧
      (processUsdot parse (fetchHtml maxRetries tok outs).result s).stats.saved
          = s.stats.saved ∧
      (processUsdot parse (fetchHtml maxRetries tok outs).result s).stats.failed
          = s.stats.failed + 1 := by
  rw [fetchHtml_first_404 maxRetries tok body outs h1 h404]
  rw [show (⟨none, 1, [], [tok]⟩ : FetchTrace).result = none from rfl]
  rw [processUsdot_falsy parse none s rfl]
  exact ⟨rfl, rfl, rfl, rfl, rfl, rfl, rfl⟩

/-- Witness for C6 (amended): a concrete 404 run — one attempt, nothing
buffered, failed counter goes from 0 to 1. -/
theorem http404_terminal_but_counted_failed_witness :
    (fetchHtml 3 "s0" (fun _ => HttpAttempt.status 404 "nf")).attemptsUsed = 1 ∧
      (processUsdot (fun _ => none)
          (fetchHtml 3 "s0" (fun _ => HttpAttempt.status 404 "nf")).result
          initWriter).stats.failed = 1 := by
  have h := http404_terminal_but_counted_failed 3 "s0" "nf"
    (fun _ => HttpAttempt.status 404 "nf") (fun _ => none) initWriter (by omega) rfl
  exact ⟨h.2.1, h.2.2.2.2.2.2⟩

/-- C10.  A request that resolves with status 200 and an empty body makes
`fetchHtml` return that empty string; `processUsdot`'s `if (html)` treats
the empty string exactly like `null` (JS falsiness), so the pipeline state
after an empty-body success is literally the state after a 404 or after
exhausted retries: `stats.failed` is incremented and nothing is appended
to the write buffer. -/
theorem empty_body_indistinguishable_from_failure (maxRetries : Nat) (tok : String)
    (outs : Nat → HttpAttempt) (parse : String → Option Snapshot) (s : WriterState)
    (h1 : 1 ≤ maxRetries) (h200 : outs 0 = HttpAttempt.status 200 "") :
    (fetchHtml maxRetries tok outs).result = some "" ∧
      processUsdot parse (some "") s = processUsdot parse none s ∧
      (processUsdot parse (some "") s).stats.failed = s.stats.failed + 1 ∧
      (processUsdot parse (some "") s).writeBatch = s.writeBatch ∧
      (processUsdot parse (some "") s).stats.scraped = s.stats.scraped := by
  rw [fetchHtml_first_200 maxRetries tok "" outs h1 h200]
  rw [processUsdot_falsy parse (some "") s (by rfl),
    processUsdot_falsy parse none s rfl]
  exact ⟨rfl, rfl, rfl, rfl, rfl⟩

/-- Witness for C10: a concrete 200-with-empty-body run. -/
theorem empty_body_indistinguishable_from_failure_witness :
    (fetchHtml 3 "s0" (fun _ => HttpAttempt.status 200 "")).result = some "" ∧
      (processUsdot (fun _ => none) (some "") initWriter).stats.failed = 1 := by
  have h := empty_body_indistinguishable_from_failure 3 "s0"
    (fun _ => HttpAttempt.status 200 "") (fun _ => none) initWriter (by omega) rfl
  exact ⟨h.1, h.2.2.1⟩

/-! ## Work-item source (`loadTodoList`, `src/orchestrator.ts` lines 42–92) -/

/-- One `allUsdots.add(usdot)` on a JS `Set`, whose iteration preserves
first-insertion order: keep the first occurrence, drop repeats. -/
def jsSetAdd (acc : List String) (u : String) : List String :=
  if u ∈ acc then acc else acc ++ [u]

/-- The JS `Set` built by inserting the elements of `l` in order. -/
def jsSetOfList (l : List String) : List String := l.foldl jsSetAdd []

/-- `loadTodoList`, from the point where the CSV lines have been collected
into the `Set` `allUsdots` (the trimmed numeric lines — the claim's input
set A): the persisted set is queried once (`none` models the query
throwing, caught by proceeding with `existingSet` empty), and the todo list
is `Array.from(allUsdots).filter(u => !existingSet.has(u))`. -/
def loadTodoList (allUsdots : List String) (existingRows : Option (List String)) :
    List String :=
  let existingSet := existingRows.getD []
  (jsSetOfList allUsdots).filter (fun u => !(existingSet.contains u))

/-- The test-mode cap applied after the difference (lines 86–89):
`todoList.slice(0, TEST_LIMIT)` when the list exceeds the limit. -/
def loadTodoListCapped (allUsdots : List String) (existingRows : Option (List String))
    (testLimit : Option Nat) : List String :=
  let todoList := loadTodoList allUsdots existingRows
  match testLimit with
  | some limit => if limit < todoList.length then todoList.take limit else todoList
  | none => todoList

theorem mem_jsSetAdd (acc : List String) (a x : String) :
    x ∈ jsSetAdd acc a ↔ x ∈ acc ∨ x = a := by
  unfold jsSetAdd
  split
  · rename_i h
    constructor
    · exact Or.inl
    · intro hx
      cases hx with
      | inl h2 => exact h2
      | inr h2 => exact h2 ▸ h
  · simp

theorem mem_foldl_jsSetAdd (l : List String) :
    ∀ acc x, x ∈ l.foldl jsSetAdd acc ↔ x ∈ acc ∨ x ∈ l := by
  induction l with
  | nil => intro acc x; simp
  | cons a t ih =>
    intro acc x
    rw [List.foldl_cons, ih, mem_jsSetAdd]
    simp only [List.mem_cons]
    tauto

theorem mem_jsSetOfList (l : List String) (x : String) :
    x ∈ jsSetOfList l ↔ x ∈ l := by
  rw [jsSetOfList, mem_foldl_jsSetAdd]
  simp

/-- C8.  The todo list computed at startup (before the optional test-mode
cap) contains exactly the identifiers of the input set A that are not in
the persisted set P — as sets, `A \ P`, so the result is independent of the
iteration order of either input; and a failed persisted-set query yields
exactly the todo list of an empty persisted set. -/
theorem todo_list_is_set_difference :
    (∀ A P : List String,
        (loadTodoList A (some P)).toFinset = A.toFinset \ P.toFinset) ∧
      (∀ A : List String, loadTodoList A none = loadTodoList A (some [])) := by
  constructor
  · intro A P
    ext x
    simp [loadTodoList, List.mem_filter, mem_jsSetOfList]
  · intro A
    rfl

/-! ## Persistence (`src/database.ts`)

`bulkInsertBatch` opens a transaction and runs `bulkInsertSnapshots`, which
issues, for each record whose trimmed `usdot_number` is non-empty, one
`INSERT INTO snapshots (usdot_number, …) VALUES (…) ON CONFLICT
(usdot_number) DO UPDATE SET <every mutable column> = EXCLUDED.<column>`.
The store is modelled as the list of rows `(usdot_number key, column
values)`; `usdot_number` is the primary key, so a well-formed store has
pairwise-distinct keys.  A record's non-key columns are kept opaque as its
`fields`. -/

/-- `truncate(s, maxLen)` of `src/database.ts` (lines 23–27): `null`/empty
in, `null` out; otherwise trim, and slice to `maxLen` when longer. -/
def truncate (s : Option String) (maxLen : Nat) : Option String :=
  match s with
  | none => none
  | some str =>
    if str = "" then none
    else
      let t := jsTrim str
      if t = "" then none
      else if maxLen < t.length then some (t.take maxLen) else some t

/-- The `usdot_number` column value inserted for a record:
`truncate(usdot, 50) ?? usdot` applied to the trimmed `usdot_number`. -/
def dbKey (r : Snapshot) : String :=
  let usdot := jsTrim r.usdot_number
  (truncate (some usdot) 50).getD usdot

/-- The skip-and-extract step of `bulkInsertSnapshots`: a record whose
trimmed `usdot_number` is empty is skipped (`if (!usdot) continue`),
otherwise it contributes its key column and its remaining column values. -/
def recordToValues (r : Snapshot) : Option (String × List String) :=
  if jsTrim r.usdot_number = "" then none
  else some (dbKey r, r.fields)

/-- Postgres semantics of one row's `INSERT … ON CONFLICT (usdot_number)
DO UPDATE SET <every column> = EXCLUDED.<column>`: if a row with the key
exists it is updated to the new values, otherwise the row is inserted. -/
def upsertRow (store : List (String × List String)) (key : String) (v : List String) :
    List (String × List String) :=
  if store.any (fun row => row.1 == key) then
    store.map (fun row => if row.1 == key then (key, v) else row)
  else store ++ [(key, v)]

/-- `bulkInsertSnapshots` of `src/database.ts` (lines 37–146): the per-record
loop of upserts, run inside `bulkInsertBatch`'s transaction. -/
def bulkInsertSnapshots (store : List (String × List String)) (records : List Snapshot) :
    List (String × List String) :=
  records.foldl
    (fun st r =>
      match recordToValues r with
      | none => st
      | some kv => upsertRow st kv.1 kv.2)
    store

/-- First-match-in-place reference implementation of the upsert, used to
reason about `upsertRow` on stores with pairwise-distinct keys. -/
def upsertRec (key : String) (v : List String) :
    List (String × List String) → List (String × List String)
  | [] => [(key, v)]
  | row :: rest =>
    if row.1 == key then (key, v) :: rest else row :: upsertRec key v rest

theorem upsertRow_eq_upsertRec (key : String) (v : List String) :
    ∀ store : List (String × List String), (store.map Prod.fst).Nodup →
      upsertRow store key v = upsertRec key v store := by
  intro store
  induction store with
  | nil => intro _; rfl
  | cons a t ih =>
    intro hnd
    have hndt : (t.map Prod.fst).Nodup := by
      simp only [List.map_cons, List.nodup_cons] at hnd
      exact hnd.2
    have hhead : a.1 ∉ t.map Prod.fst := by
      simp only [List.map_cons, List.nodup_cons] at hnd
      exact hnd.1
    by_cases ha : a.1 = key
    · have htail : ∀ row ∈ t, (row.1 == key) = false := by
        intro row hrow
        rw [beq_eq_false_iff_ne]
        intro hc
        exact hhead (List.mem_map.mpr ⟨row, hrow, by rw [hc, ha]⟩)
      have hany : (a :: t).any (fun row => row.1 == key) = true := by
        simp [ha]
      rw [upsertRow, if_pos hany, upsertRec]
      rw [if_pos (by simp [ha])]
      simp only [List.map_cons, if_pos (by simp [ha] : (a.1 == key) = true)]
      refine congrArg _ ?_
      calc t.map (fun row => if row.1 == key then (key, v) else row)
          = t.map id := List.map_congr_left (fun row hrow => by
            rw [if_neg (by simp [htail row hrow])]
            rfl)
        _ = t := List.map_id t
    · rw [upsertRec, if_neg (by simp [ha]), ← ih hndt]
      rw [upsertRow]
      by_cases hanyt : t.any (fun row => row.1 == key) = true
      · rw [if_pos (by simp [hanyt]), upsertRow, if_pos hanyt]
        simp only [List.map_cons, if_neg (by simp [ha] : ¬(a.1 == key) = true)]
      · rw [if_neg (by simp [ha, hanyt]), upsertRow, if_neg hanyt]
        simp

theorem upsertRec_keys_mem (key x : String) (v : List String) :
    ∀ store : List (String × List String),
      x ∈ (upsertRec key v store).map Prod.fst →
        x ∈ store.map Prod.fst ∨ x = key := by
  intro store
  induction store with
  | nil =>
    intro h
    have h2 : x ∈ [key] := h
    exact Or.inr (List.mem_singleton.mp h2)
  | cons a t ih =>
    intro h
    rw [upsertRec] at h
    by_cases ha : (a.1 == key) = true
    · rw [if_pos ha] at h
      simp only [List.map_cons, List.mem_cons] at h ⊢
      cases h with
      | inl h2 => exact Or.inr h2
      | inr h2 => exact Or.inl (Or.inr h2)
    · rw [if_neg ha] at h
      simp only [List.map_cons, List.mem_cons] at h ⊢
      cases h with
      | inl h2 => exact Or.inl (Or.inl h2)
      | inr h2 =>
        cases ih h2 with
        | inl h3 => exact Or.inl (Or.inr h3)
        | inr h3 => exact Or.inr h3

theorem upsertRec_keys_nodup (key : String) (v : List String) :
    ∀ store : List (String × List String), (store.map Prod.fst).Nodup →
      ((upsertRec key v store).map Prod.fst).Nodup := by
  intro store
  induction store with
  | nil => intro _; exact List.nodup_singleton key
  | cons a t ih =>
    intro hnd
    simp only [List.map_cons, List.nodup_cons] at hnd
    rw [upsertRec]
    by_cases ha : (a.1 == key) = true
    · rw [if_pos ha]
      simp only [List.map_cons, List.nodup_cons]
      refine ⟨?_, hnd.2⟩
      rw [beq_iff_eq] at ha
      rw [← ha]
      exact hnd.1
    · rw [if_neg ha]
      simp only [List.map_cons, List.nodup_cons]
      refine ⟨?_, ih hnd.2⟩
      intro hc
      cases upsertRec_keys_mem key a.1 v t hc with
      | inl h2 => exact hnd.1 h2
      | inr h2 => exact ha (by simp [h2])

theorem upsertRec_filter (key : String) (v : List String) :
    ∀ store : List (String × List String), (store.map Prod.fst).Nodup →
      (upsertRec key v store).filter (fun row => row.1 == key) = [(key, v)] := by
  intro store
  induction store with
  | nil => simp [upsertRec]
  | cons a t ih =>
    intro hnd
    simp only [List.map_cons, List.nodup_cons] at hnd
    rw [upsertRec]
    by_cases ha : (a.1 == key) = true
    · rw [if_pos ha]
      have htail : t.filter (fun row => row.1 == key) = [] := by
        rw [List.filter_eq_nil_iff]
        intro row hrow hc
        rw [beq_iff_eq] at ha hc
        exact hnd.1 (List.mem_map.mpr ⟨row, hrow, by rw [hc, ha]⟩)
      simp [List.filter_cons, htail]
    · rw [if_neg ha]
      have ha2 : (a.1 == key) = false := by
        rw [beq_eq_false_iff_ne]
        intro hc
        exact ha (by simp [hc])
      simp [List.filter_cons, ha2, ih hnd.2]

/-- C9.  Committing the same record twice through the batch upsert — same
primary identifier, possibly different field values — leaves a well-formed
store (pairwise-distinct keys) with exactly one row for that identifier,
holding the later record's values; and processing the two records in one
batch is literally the same fold as processing them in two consecutive
batches, so the guarantee holds across both batchings. -/
theorem upsert_same_key_single_row (store : List (String × List String))
    (r1 r2 : Snapshot) (hnd : (store.map Prod.fst).Nodup)
    (h1 : jsTrim r1.usdot_number ≠ "") (h2 : jsTrim r2.usdot_number ≠ "")
    (hkey : dbKey r1 = dbKey r2) :
    bulkInsertSnapshots store [r1, r2]
        = bulkInsertSnapshots (bulkInsertSnapshots store [r1]) [r2] ∧
      (bulkInsertSnapshots store [r1, r2]).filter (fun row => row.1 == dbKey r2)
        = [(dbKey r2, r2.fields)] ∧
      (bulkInsertSnapshots store [r1, r2]).filter (fun row => row.1 == dbKey r1)
        = [(dbKey r2, r2.fields)] ∧
      ((bulkInsertSnapshots store [r1, r2]).map Prod.fst).Nodup := by
  have hsame : bulkInsertSnapshots store [r1, r2]
      = upsertRow (upsertRow store (dbKey r1) r1.fields) (dbKey r2) r2.fields := by
    simp [bulkInsertSnapshots, recordToValues, h1, h2]
  have hnd1 : ((upsertRow store (dbKey r1) r1.fields).map Prod.fst).Nodup := by
    rw [upsertRow_eq_upsertRec _ _ store hnd]
    exact upsertRec_keys_nodup _ _ store hnd
  refine ⟨rfl, ?_, ?_, ?_⟩
  · rw [hsame, upsertRow_eq_upsertRec _ _ _ hnd1]
    exact upsertRec_filter _ _ _ hnd1
  · rw [hkey, hsame, upsertRow_eq_upsertRec _ _ _ hnd1]
    exact upsertRec_filter _ _ _ hnd1
  · rw [hsame, upsertRow_eq_upsertRec _ _ _ hnd1]
    exact upsertRec_keys_nodup _ _ _ hnd1

/-- Witness for C9: the same identifier "123" committed twice with
different field values — an empty store ends up with exactly the one row
holding the second commit's values. -/
theorem upsert_same_key_single_row_witness :
    (bulkInsertSnapshots [] [⟨"123", ["old"]⟩, ⟨"123", ["new"]⟩]).filter
        (fun row => row.1 == dbKey ⟨"123", ["new"]⟩)
      = [(dbKey ⟨"123", ["new"]⟩, ["new"])] ∧
      bulkInsertSnapshots [] [⟨"123", ["old"]⟩, ⟨"123", ["new"]⟩]
        = bulkInsertSnapshots (bulkInsertSnapshots [] [⟨"123", ["old"]⟩]) [⟨"123", ["new"]⟩] := by
  have h := upsert_same_key_single_row [] ⟨"123", ["old"]⟩ ⟨"123", ["new"]⟩
    (by simp) (by decide) (by decide) rfl
  exact ⟨h.2.1, h.1⟩

end Fmcsa
